import Mathlib

/-!
Verification of the ultra_tracker Course & Runner Localization Engine.

This file is a shallow embedding, in Lean 4, of the parts of the repository
`aaron-iles/ultra_tracker` that the checked properties talk about:

* `src/ultra_tracker/models/course.py` — route path builder
  (`interpolate_and_filter_points`, `transform_path`), elevation profile
  (`cumulative_altitude_changes`), course-element ordering
  (`CourseElement.__lt__`), aid-station arrival/departure detection
  (`AidStation.detect_arrival_time` / `detect_departure_time`), and the
  radius query (`Route.get_indices_within_radius`).
* `src/ultra_tracker/models/race.py` — the probabilistic mile-mark pick
  (`calculate_most_probable_mile_mark`) and the check-in protocol
  (`Runner.check_in`).
* `src/ultra_tracker/utils.py` — `detect_consecutive_sequences`,
  `kph_to_min_per_mi`.

Modelling conventions:

* Python floats are modelled as `ℚ` (the code performs exact-looking
  arithmetic on coordinates, mile marks and minutes; no claim here depends
  on floating-point rounding).
* The external geodesic/haversine distance oracles (`geopy.distance.geodesic`
  and `utils.haversine_distance`) are real-valued transcendental functions;
  the embedding takes them as an explicit function parameter `dist`
  (`LatLon → LatLon → ℚ`).  The algorithms under verification only call the
  oracle and compare/accumulate its results, so every theorem below is
  stated either for all such oracles (possibly assuming nonnegativity) or
  for an explicitly given concrete oracle.
* `datetime` timestamps are modelled as rational minutes since the epoch;
  the epoch sentinel `datetime.datetime.fromtimestamp(0)` is the value `0`.
* Fallible code is embedded in `Except PyErr`; `PyErr` enumerates the
  exceptions the embedded paths can raise.
-/

/-- A latitude/longitude pair (`(lat, lon)` rows of the numpy arrays). -/
structure LatLon where
  lat : ℚ
  lon : ℚ
deriving DecidableEq, Repr

/-- Distance oracle: models `geopy.distance.geodesic(..).feet`/`.miles` or
`utils.haversine_distance`, which the source treats as a black box. -/
abbrev GeoDist := LatLon → LatLon → ℚ

/-- Exceptions reachable in the embedded code paths.  `indexError` models a
numpy out-of-bounds access, `unboundLocalError` models Python reading a loop
variable that was never assigned.  `invalidRouteError` is the typed error the
spec names (`InvalidRouteError`); no such class exists anywhere in the
repository, the constructor exists only so the spec's claimed behaviour is
expressible. -/
inductive PyErr where
  | indexError
  | unboundLocalError
  | invalidRouteError
deriving DecidableEq, Repr

/-- Python `int(q)`: truncation toward zero. -/
def pyInt (q : ℚ) : ℤ :=
  if q < 0 then -⌊-q⌋ else ⌊q⌋

/-- The `j`-th linearly interpolated point of `course.py:66-74`:
`point1 + j * ((point2 - point1) / num_intervals)` componentwise in lat/lon
space. -/
def lerpPoint (p1 p2 : LatLon) (n : ℕ) (j : ℕ) : LatLon :=
  ⟨p1.lat + (j : ℚ) * ((p2.lat - p1.lat) / (n : ℚ)),
   p1.lon + (j : ℚ) * ((p2.lon - p1.lon) / (n : ℚ))⟩

/-- One iteration body of the loop of `interpolate_and_filter_points`
(`course.py:48-79`): given the last accepted point and the candidate
`point2`, return the list of points appended during this iteration.
Branches, in source order: drop when `distance < min_interval_dist`;
interpolate `num_intervals = int(distance / max_interval_dist)` points
(`j = 1 .. num_intervals`, the last one being `point2` itself) when
`distance > max_interval_dist`; otherwise append `point2` as-is.
When `0 < max_interval_dist < distance` the count `num_intervals` is at
least 1; the source would raise `ZeroDivisionError` if it were 0 (only
reachable with a nonpositive max spacing), a corner outside every claim. -/
def interpStep (dist : GeoDist) (min_interval_dist max_interval_dist : ℚ)
    (last_point point2 : LatLon) : List LatLon :=
  let distance_between_points := dist last_point point2
  if distance_between_points < min_interval_dist then []
  else if distance_between_points > max_interval_dist then
    let num_intervals := (pyInt (distance_between_points / max_interval_dist)).toNat
    (List.range num_intervals).map (fun j => lerpPoint last_point point2 num_intervals (j + 1))
  else [point2]

/-- The loop of `interpolate_and_filter_points` (`course.py:47-80`) over the
remaining candidate points, threading `last_point = interpolated_points[-1]`
(unchanged when an iteration appended nothing). -/
def iafpGo (dist : GeoDist) (min_interval_dist max_interval_dist : ℚ) :
    LatLon → List LatLon → List LatLon
  | _, [] => []
  | last_point, p2 :: rest =>
    let app := interpStep dist min_interval_dist max_interval_dist last_point p2
    app ++ iafpGo dist min_interval_dist max_interval_dist (app.getLastD last_point) rest

/-- Embedding of `interpolate_and_filter_points` (`course.py:26-85`).
The source seeds the output with `coordinates[0]`, then loops
`for i in range(1, len(coordinates) - 1)` with `point2 = coordinates[i + 1]`
— so the candidates are `coordinates[2:]` and `coordinates[1]` is never
examined — and finally appends the loop variable `point2` once more.
With 0 input points, `coordinates[0, 0]` raises `IndexError`; with 1 or 2
input points the loop never runs and the trailing `np.vstack` reads the
unassigned `point2`, raising `UnboundLocalError`. -/
def interpolate_and_filter_points (dist : GeoDist) (coordinates : List LatLon)
    (min_interval_dist max_interval_dist : ℚ) : Except PyErr (List LatLon) :=
  match coordinates with
  | [] => .error .indexError
  | [_] => .error .unboundLocalError
  | [_, _] => .error .unboundLocalError
  | c0 :: _ :: c2 :: rest =>
    let candidates := c2 :: rest
    .ok (c0 :: (iafpGo dist min_interval_dist max_interval_dist c0 candidates
          ++ [candidates.getLastD c0]))

/-- Distances between consecutive points, as accumulated by the loop of
`transform_path` (`course.py:109-118`). -/
def pairwiseDistances (distMi : GeoDist) (l : List LatLon) : List ℚ :=
  List.zipWith distMi l l.tail

/-- Cumulative-distance array of `transform_path` (`course.py:102-118`):
entry `i` is the running sum of the consecutive distances up to point `i`,
starting at 0 for the first point (numpy `zeros` of the output length,
filled by the loop). -/
def cumulativeDistances (distMi : GeoDist) (l : List LatLon) : List ℚ :=
  match l with
  | [] => []
  | _ :: _ => List.scanl (· + ·) 0 (pairwiseDistances distMi l)

/-- Embedding of `transform_path` (`course.py:88-119`): interpolate/filter the
path, then pair it with the cumulative-distance array.  `distFt` models the
geodesic oracle in feet (used for spacing), `distMi` the same oracle queried
in miles (used for the cumulative distances). -/
def transform_path (distFt distMi : GeoDist) (path_data : List LatLon)
    (min_step_size max_step_size : ℚ) : Except PyErr (List LatLon × List ℚ) :=
  (interpolate_and_filter_points distFt path_data min_step_size max_step_size).map
    (fun pts => (pts, cumulativeDistances distMi pts))

/-- numpy `np.diff`: differences of consecutive entries. -/
def np_diff (l : List ℚ) : List ℚ :=
  List.zipWith (fun a b => b - a) l l.tail

/-- Entrywise `np.where(changes > 0, changes, 0)`. -/
def posDelta (c : ℚ) : ℚ := if 0 < c then c else 0

/-- Entrywise `np.where(changes < 0, -changes, 0)`. -/
def negDelta (c : ℚ) : ℚ := if c < 0 then -c else 0

/-- Embedding of `cumulative_altitude_changes` (`course.py:152-168`).
`np.insert(np.cumsum xs, 0, 0)` is exactly `List.scanl (· + ·) 0 xs`:
the running sums of `xs` prefixed with 0. -/
def cumulative_altitude_changes (altitudes : List ℚ) : List ℚ × List ℚ :=
  let changes := np_diff altitudes
  (List.scanl (· + ·) 0 (changes.map posDelta),
   List.scanl (· + ·) 0 (changes.map negDelta))

/-- Kind tag distinguishing the two concrete `CourseElement` variants
(`AidStation` vs `Leg` in `course.py`). -/
inductive CEKind where
  | aidStation
  | leg
deriving DecidableEq, Repr

/-- The fields of `course.py`'s `CourseElement` base class that its
`__lt__` comparison reads (`course.py:349-354, 381-385`).  For an
`AidStation` the constructor sets `end_mile_mark = mile_mark`. -/
structure CourseElement where
  kind : CEKind
  mile_mark : ℚ
  end_mile_mark : ℚ
deriving DecidableEq, Repr

/-- Embedding of `CourseElement.__lt__` (`course.py:381-385`): when the
right-hand operand is a `Leg` with the same mile mark the comparison
returns `False`; otherwise it compares mile marks. -/
def CourseElement.lt (a b : CourseElement) : Bool :=
  if b.kind = CEKind.leg ∧ a.mile_mark = b.mile_mark then false
  else decide (a.mile_mark < b.mile_mark)

/-- Order-faithful surrogate for `scipy.stats.norm.pdf x loc scale`
(`race.py:48`).  For a fixed `scale > 0` the density
`exp (-((x - loc) / scale) ^ 2 / 2) / (scale * sqrt (2 * pi))` is strictly
decreasing in `(x - loc) ^ 2`, so replacing each value by
`-(x - loc) ^ 2` preserves every comparison between entries of one
`probabilities` array (all entries share `loc` and `scale`).  For
`scale ≤ 0` scipy returns NaN for every `x`, modelled as `none`. -/
def norm_pdf_key (loc scale x : ℚ) : Option ℚ :=
  if scale ≤ 0 then none else some (-((x - loc) ^ 2))

/-- NaN-aware strict "greater" on pdf values, matching how `np.argmax`
propagates NaN (NaN compares as maximal; NaN never replaces NaN). -/
def nanGT : Option ℚ → Option ℚ → Bool
  | none, none => false
  | none, some _ => true
  | some _, none => false
  | some a, some b => decide (b < a)

/-- Scanning loop of `np.argmax`: keep the first index of the running
maximum, with NaN (`none`) treated as maximal. -/
def np_argmaxGo : ℕ → ℕ → Option ℚ → List (Option ℚ) → ℕ
  | _, best, _, [] => best
  | i, best, bestVal, v :: rest =>
    if nanGT v bestVal then np_argmaxGo (i + 1) i v rest
    else np_argmaxGo (i + 1) best bestVal rest

/-- Embedding of `np.argmax` over the (possibly NaN-valued) probabilities array. -/
def np_argmax (l : List (Option ℚ)) : ℕ :=
  match l with
  | [] => 0
  | v0 :: rest => np_argmaxGo 1 0 v0 rest

/-- Embedding of `calculate_most_probable_mile_mark` (`race.py:26-51`).
Python falsiness of `average_overall_pace` is the test `= 0`.  Returns
`none` for an empty candidate list (the source would raise there). -/
def calculate_most_probable_mile_mark (mile_marks : List ℚ)
    (elapsed_time : ℚ) (average_overall_pace : ℚ) : Option ℚ :=
  let average_speed := if average_overall_pace = 0 then (1 : ℚ) / 10
    else 1 / average_overall_pace
  let expected_distance := elapsed_time * average_speed
  let standard_deviation := average_overall_pace / 3
  let probabilities := mile_marks.map (norm_pdf_key expected_distance standard_deviation)
  mile_marks.get? (np_argmax probabilities)

/-- The runner attributes read by the aid-station detection pass
(`course.py:555-593`): mile mark, total route length (for the `finished`
property), average moving pace (minutes per mile) and the timestamp of the
last accepted ping (rational minutes). -/
structure RunnerView where
  mile_mark : ℚ
  route_length : ℚ
  average_moving_pace : ℚ
  last_ping_timestamp : ℚ
deriving DecidableEq, Repr

/-- Embedding of `Runner.started` (`race.py:330-336`): mile mark beyond 0.11. -/
def runnerStarted (r : RunnerView) : Bool :=
  decide (r.mile_mark > 0.11)

/-- Embedding of `Runner.finished` (`race.py:338-348`): started and within 0.11 miles of
the route length. -/
def runnerFinished (r : RunnerView) : Bool :=
  runnerStarted r && decide (|r.route_length - r.mile_mark| < 0.11)

/-- The `AidStation` fields touched by arrival/departure detection
(`course.py:421-440`).  Timestamps are rational minutes; the epoch
sentinel `datetime.datetime.fromtimestamp(0)` is 0. -/
structure AidStation where
  mile_mark : ℚ
  end_mile_mark : ℚ
  arrival_time : ℚ
  departure_time : ℚ
  estimated_arrival_time : ℚ
deriving DecidableEq, Repr

/-- Embedding of `AidStation.runner_has_arrived` (`course.py:527-535`). -/
def AidStation.runner_has_arrived (s : AidStation) (r : RunnerView) : Bool :=
  decide (r.mile_mark - s.mile_mark ≥ -0.11)

/-- Embedding of `AidStation.runner_has_departed` (`course.py:537-544`). -/
def AidStation.runner_has_departed (s : AidStation) (r : RunnerView) : Bool :=
  decide (r.mile_mark - s.end_mile_mark > 0.11)

/-- Embedding of `CourseElement.is_transiting` (`course.py:370-379`) specialised to an
aid station. -/
def AidStation.is_transiting (s : AidStation) (r : RunnerView) : Bool :=
  if runnerFinished r || !runnerStarted r then false
  else s.runner_has_arrived r && !s.runner_has_departed r

/-- Embedding of `AidStation.detect_arrival_time` (`course.py:555-573`). -/
def AidStation.detect_arrival_time (s : AidStation) (r : RunnerView) : AidStation :=
  if s.arrival_time ≠ 0 then s
  else if s.is_transiting r || (s.runner_has_arrived r && s.runner_has_departed r) then
    { s with arrival_time := s.estimated_arrival_time }
  else s

/-- Embedding of `AidStation.detect_departure_time` (`course.py:575-593`):
the recorded departure is the ping timestamp minus
`dist_traveled * average_moving_pace` minutes. -/
def AidStation.detect_departure_time (s : AidStation) (r : RunnerView) : AidStation :=
  if s.departure_time ≠ 0 then s
  else if !s.is_transiting r && s.runner_has_departed r then
    { s with departure_time :=
        r.last_ping_timestamp - (r.mile_mark - s.mile_mark) * r.average_moving_pace }
  else s

/-- Insertion into a sorted list, the building block of the embedded
`np.sort`. -/
def insertSorted (x : ℕ) : List ℕ → List ℕ
  | [] => [x]
  | y :: ys => if x ≤ y then x :: y :: ys else y :: insertSorted x ys

/-- Embedding of `np.sort` on an index list (insertion sort; the source only relies on
the result being ascending). -/
def np_sort (l : List ℕ) : List ℕ :=
  l.foldr insertSorted []

/-- Grouping loop of `detect_consecutive_sequences`: split the sorted list
wherever the gap between neighbours exceeds 1 (numpy `diffs > 1` break
points). -/
def splitRunsGo (prev : ℕ) (cur : List ℕ) : List ℕ → List (List ℕ)
  | [] => [cur.reverse]
  | y :: ys =>
    if prev + 1 < y then cur.reverse :: splitRunsGo y [y] ys
    else splitRunsGo y (y :: cur) ys

/-- Embedding of `np.split(sorted, break_points)`: on an empty array numpy returns one
empty segment, hence the `[[]]` base case. -/
def splitRuns : List ℕ → List (List ℕ)
  | [] => [[]]
  | x :: xs => splitRunsGo x [x] xs

/-- Embedding of `detect_consecutive_sequences` (`utils.py:171-189`). -/
def detect_consecutive_sequences (integers : List ℕ) : List (List ℕ) :=
  splitRuns (np_sort integers)

/-- Stable sort of the kept indices by their distance from the center,
modelling `indices_within_radius[np.argsort(distances[indices_within_radius])]`
(`course.py:772-774`; ties are broken arbitrarily by numpy's quicksort, by
input order here). -/
def sortIndicesByDistance (distances : List ℚ) (l : List ℕ) : List ℕ :=
  l.mergeSort (fun i j => decide (distances.getD i 0 ≤ distances.getD j 0))

/-- Embedding of `Route.get_indices_within_radius` (`course.py:750-775`):
haversine distance from the center to every route point, indices of the
points within the radius (ascending, as `np.where` yields them), then the
consecutive-run classification and the closest-first ordering. -/
def get_indices_within_radius (dist : GeoDist) (points : List LatLon)
    (center : LatLon) (radius : ℚ) : List ℕ × Bool :=
  let distances := points.map (fun p => dist center p)
  let indices_within_radius :=
    (List.range points.length).filter (fun i => decide (distances.getD i 0 ≤ radius))
  let route_segments := detect_consecutive_sequences indices_within_radius
  let sorted_indices := sortIndicesByDistance distances indices_within_radius
  (sorted_indices, route_segments.length == 1)

/-- The `Ping` fields read by `Runner.check_in` (`tracker.py:11-48`):
timestamp (rational minutes), coordinates, speed (kph), heading, and the
integer status flags `lowBattery` and `intervalChange` (0 when absent). -/
structure Ping where
  timestamp : ℚ
  latlon : LatLon
  speed : ℚ
  heading : ℚ
  low_battery : ℤ
  interval_change : ℤ
deriving DecidableEq, Repr

/-- The mutable `Runner` attributes `check_in` touches (`race.py:240-259`). -/
structure RunnerState where
  current_pace : ℚ
  elevation : ℚ
  last_ping : Ping
  low_battery : Bool
  mile_mark : ℚ
  pings : ℕ
  track_interval : ℤ
deriving DecidableEq, Repr

/-- Embedding of `kph_to_min_per_mi` (`utils.py:85-94`). -/
def kph_to_min_per_mi (kph : ℚ) : ℚ :=
  if kph = 0 then 0 else 60 / (kph / 1.60934)

/-- Embedding of `Runner.average_overall_pace` (`race.py:272-281`): 10.0 before the
runner has started (mile mark at most 0.11), otherwise elapsed minutes
(last ping timestamp minus race start) divided by the mile mark. -/
def average_overall_pace (start_time : ℚ) (st : RunnerState) : ℚ :=
  if st.mile_mark > 0.11 then (st.last_ping.timestamp - start_time) / st.mile_mark
  else 10

/-- Oracle for `Runner.calculate_mile_mark` (`race.py:394-452`): from the
ping coordinates and the previous overall pace to
`(mile_mark, matched route point, elevation)`.  The claims about `check_in`
hold for every such oracle, so it is a parameter rather than inlined. -/
abbrev CalcMM := LatLon → ℚ → ℚ × LatLon × ℚ

/-- Embedding of `Runner.check_in` (`race.py:454-507`) as a transition on
`RunnerState`.  Before the staleness guard the source already increments the
ping counter, refreshes the low-battery flag and, when the ping carries a
truthy `interval_change`, the tracking interval; a stale ping returns at
that point.  Otherwise the previous overall pace is captured, the ping is
accepted, the current pace is recomputed from the ping speed, and the mile
mark/elevation are replaced by the oracle's result.  The remaining source
lines only log, update external map markers and refresh course elements —
none of them touch the fields modelled here. -/
def check_in (calcMM : CalcMM) (start_time : ℚ) (st : RunnerState) (ping : Ping) :
    RunnerState :=
  let last_timestamp := st.last_ping.timestamp
  let st1 : RunnerState :=
    { st with
      pings := st.pings + 1
      low_battery := decide (ping.low_battery = 1)
      track_interval := if ping.interval_change ≠ 0 then ping.interval_change
        else st.track_interval }
  if last_timestamp > ping.timestamp then st1
  else
    let last_overall_pace := average_overall_pace start_time st1
    let st2 := { st1 with last_ping := ping, current_pace := kph_to_min_per_mi ping.speed }
    let r := calcMM ping.latlon last_overall_pace
    { st2 with mile_mark := r.1, elevation := r.2.2 }

/-- Concrete distance oracle used by the counterexamples and witnesses:
the points involved lie on one meridian (`lon = 0`) at small angular
separation, where the geodesic distance is proportional to the latitude
difference; the latitude unit is chosen so the proportionality constant
is 1 foot. -/
def dist1D : GeoDist := fun p q => |q.lat - p.lat|

/-- Constant one-mile oracle for the cumulative-distance witnesses. -/
def oneMi : GeoDist := fun _ _ => 1

/-- Mile-mark oracle that ignores its inputs; used where the claim under
test is independent of the mile-mark computation. -/
def anyCalc : CalcMM := fun _ _ => (0, ⟨0, 0⟩, 0)

/-- Mile-mark oracle returning 20.57 miles (the value the repository's own
test `test_sanity_check_mile_mark_sub4_pace` uses for an implausibly fast
reading). -/
def c1_calc : CalcMM := fun _ _ => (20.57, ⟨0, 0⟩, 0)

/-- Runner state before the implausible reading: mile 19.3, last ping at
minute 870 (14:30). -/
def c1_state : RunnerState :=
  { current_pace := 10
    elevation := 0
    last_ping :=
      { timestamp := 870, latlon := ⟨0, 0⟩, speed := 0, heading := 0
        low_battery := 0, interval_change := 0 }
    low_battery := false
    mile_mark := 19.3
    pings := 40
    track_interval := 300 }

/-- The fix five minutes later (minute 875, 14:35) whose computed mile mark
of 20.57 implies a 3.94 min/mile pace. -/
def c1_ping : Ping :=
  { timestamp := 875, latlon := ⟨0, 0⟩, speed := 0, heading := 0
    low_battery := 0, interval_change := 0 }

/-- Runner state holding a fix at minute 100, with the low-battery flag set
and a 300-second tracking interval. -/
def c2_state : RunnerState :=
  { current_pace := 10
    elevation := 42
    last_ping :=
      { timestamp := 100, latlon := ⟨1, 2⟩, speed := 5, heading := 0
        low_battery := 1, interval_change := 0 }
    low_battery := true
    mile_mark := 3
    pings := 7
    track_interval := 300 }

/-- A stale fix (minute 90, older than the held minute-100 fix) reporting a
healthy battery and a 60-second interval change. -/
def c2_ping : Ping :=
  { timestamp := 90, latlon := ⟨3, 4⟩, speed := 9, heading := 0
    low_battery := 0, interval_change := 60 }

/-- An aid station at mile 5 with both timestamps already recorded
(arrival minute 100, departure minute 120) and a distinct pending estimate. -/
def c8_station : AidStation :=
  { mile_mark := 5, end_mile_mark := 5, arrival_time := 100
    departure_time := 120, estimated_arrival_time := 90 }

/-- A runner past the station (mile 6 of a 50-mile route), i.e. one for
which both detection branches would otherwise fire. -/
def c8_runner : RunnerView :=
  { mile_mark := 6, route_length := 50, average_moving_pace := 10
    last_ping_timestamp := 300 }

/-- C1: the spec and the repository's own tests
(`tests/test_models_race.py:58-68`) require a pace-plausibility guard:
a computed mile-mark delta implying a pace faster than 4 min/mile between
consecutive fixes must be rejected and the previous mile mark retained.
The `check_in` in the source has no such guard: on the very scenario of the
repository's test (mile 19.3, then a fix 5 minutes later whose computed
mile mark is 20.57, an implied pace of 3.94 min/mile), it adopts the new
mile mark instead of retaining 19.3. -/
theorem C1_check_in_accepts_sub4_pace_delta :
    (c1_ping.timestamp - c1_state.last_ping.timestamp) / ((20.57 : ℚ) - c1_state.mile_mark) < 4 ∧
    c1_state.mile_mark = 19.3 ∧
    (check_in c1_calc 0 c1_state c1_ping).mile_mark = 20.57 := by
  refine ⟨by norm_num [c1_ping, c1_state], by norm_num [c1_state], ?_⟩
  norm_num [check_in, c1_ping, c1_state, c1_calc]

/-- C2 (counterexample): a fix older than the held fix is not a pings-only
no-op — `check_in` refreshes the low-battery flag and the tracking interval
before the staleness guard (`race.py:463-473`).  Concretely: held fix at
minute 100 with `low_battery = true` and `track_interval = 300`; a stale
minute-90 fix reporting battery OK and a 60-second interval change flips
the flag and the interval. -/
theorem C2_stale_fix_mutates_flags :
    c2_state.last_ping.timestamp > c2_ping.timestamp ∧
    c2_state.low_battery = true ∧ (check_in anyCalc 0 c2_state c2_ping).low_battery = false ∧
    c2_state.track_interval = 300 ∧ (check_in anyCalc 0 c2_state c2_ping).track_interval = 60 := by
  refine ⟨by norm_num [c2_state, c2_ping], rfl, ?_, rfl, ?_⟩ <;>
    norm_num [check_in, c2_state, c2_ping]

/-- C2 (amended): on a fix strictly older than the held fix, `check_in`
leaves mile mark, elevation, last accepted fix and current pace unchanged
and increments the ping counter — but it still refreshes the low-battery
flag from the fix and, when the fix carries a nonzero interval change, the
reporting-interval hint. -/
theorem C2_stale_fix_effect (calcMM : CalcMM) (start_time : ℚ)
    (st : RunnerState) (ping : Ping) (h : ping.timestamp < st.last_ping.timestamp) :
    check_in calcMM start_time st ping =
      { st with
        pings := st.pings + 1
        low_battery := decide (ping.low_battery = 1)
        track_interval := if ping.interval_change ≠ 0 then ping.interval_change
          else st.track_interval } := by
  unfold check_in
  rw [if_pos h]

/-- C2 (witness): the amended statement applied to the concrete stale fix. -/
theorem C2_stale_fix_effect_witness :
    c2_ping.timestamp < c2_state.last_ping.timestamp ∧
    check_in anyCalc 0 c2_state c2_ping =
      { c2_state with
        pings := c2_state.pings + 1
        low_battery := decide (c2_ping.low_battery = 1)
        track_interval := if c2_ping.interval_change ≠ 0 then c2_ping.interval_change
          else c2_state.track_interval } :=
  ⟨by norm_num [c2_state, c2_ping],
   C2_stale_fix_effect anyCalc 0 c2_state c2_ping (by norm_num [c2_state, c2_ping])⟩

/-- C4 (counterexample): on an empty polyline the route path builder fails,
but with an unhandled numpy `IndexError` (from `coordinates[0, 0]`), not
with the typed `InvalidRouteError` the claim names — no such error class
exists anywhere in the repository. -/
theorem C4_empty_polyline_index_error :
    interpolate_and_filter_points dist1D [] 5 75 = .error .indexError ∧
    (Except.error PyErr.indexError : Except PyErr (List LatLon)) ≠
      .error .invalidRouteError := by
  refine ⟨rfl, fun h => ?_⟩
  simp at h

/-- C4 (amended): a raw polyline with fewer than 2 points makes
`interpolate_and_filter_points` fail, but with an untyped Python error —
`IndexError` for 0 points, `UnboundLocalError` for 1 point (the trailing
`np.vstack` reads the never-assigned loop variable `point2`) — not with an
`InvalidRouteError`. -/
theorem C4_short_polyline_fails (dist : GeoDist) (coordinates : List LatLon)
    (min_interval_dist max_interval_dist : ℚ) (h : coordinates.length < 2) :
    interpolate_and_filter_points dist coordinates min_interval_dist max_interval_dist =
      .error (if coordinates = [] then PyErr.indexError else PyErr.unboundLocalError) := by
  match coordinates, h with
  | [], _ => rfl
  | [_], _ => rfl

/-- C4 (witness): the amended statement applied to a one-point polyline. -/
theorem C4_short_polyline_fails_witness :
    ([(⟨3, 4⟩ : LatLon)].length < 2) ∧
    interpolate_and_filter_points dist1D [⟨3, 4⟩] 5 75 =
      .error (if [(⟨3, 4⟩ : LatLon)] = [] then PyErr.indexError
        else PyErr.unboundLocalError) :=
  ⟨by decide, C4_short_polyline_fails dist1D [⟨3, 4⟩] 5 75 (by decide)⟩

/-- C6 (counterexample): at equal mile marks `CourseElement.__lt__` does
NOT place an `AidStation` strictly before a `Leg`: the comparison returns
`False` (its first branch), so `AidStation < Leg` fails to hold.  (The
aid-before-leg placement in `get_course_elements` comes from Python's
stable `sorted` over the list `aid_station_objects + legs`, not from the
comparison.) -/
theorem C6_aid_not_lt_leg_at_equal_mile :
    CourseElement.lt ⟨CEKind.aidStation, 5, 5⟩ ⟨CEKind.leg, 5, 7⟩ = false := by
  decide

/-- C6 (amended): at equal mile marks the ordering relation makes an
`AidStation` and a `Leg` incomparable — neither `AidStation < Leg` nor
`Leg < AidStation` holds. -/
theorem C6_equal_mile_incomparable (a b : CourseElement)
    (ha : a.kind = CEKind.aidStation) (hb : b.kind = CEKind.leg)
    (hmm : a.mile_mark = b.mile_mark) :
    CourseElement.lt a b = false ∧ CourseElement.lt b a = false := by
  constructor
  · simp [CourseElement.lt, hb, hmm]
  · simp [CourseElement.lt, ha, hmm]

/-- C6 (witness): the amended statement at mile mark 5. -/
theorem C6_equal_mile_incomparable_witness :
    CourseElement.lt ⟨CEKind.aidStation, 5, 5⟩ ⟨CEKind.leg, 5, 7⟩ = false ∧
    CourseElement.lt ⟨CEKind.leg, 5, 7⟩ ⟨CEKind.aidStation, 5, 5⟩ = false :=
  C6_equal_mile_incomparable ⟨CEKind.aidStation, 5, 5⟩ ⟨CEKind.leg, 5, 7⟩ rfl rfl rfl

/-- C7: with a single candidate mile mark and pace 0 the most-probable pick
returns that mile mark unchanged, for every elapsed time: the standard
deviation `pace / 3` is 0, scipy's pdf is NaN everywhere, and `np.argmax`
of a one-element array is index 0. -/
theorem C7_single_candidate_zero_pace (elapsed_time m : ℚ) :
    calculate_most_probable_mile_mark [m] elapsed_time 0 = some m := by
  simp [calculate_most_probable_mile_mark, norm_pdf_key, np_argmax, np_argmaxGo]

/-- C8: a recorded (non-epoch) arrival or departure timestamp is never
overwritten by a later detection pass — both detectors return the station
unchanged in that component, for every runner position. -/
theorem C8_recorded_timestamps_immutable (s : AidStation) (r : RunnerView) :
    (s.arrival_time ≠ 0 → (s.detect_arrival_time r).arrival_time = s.arrival_time) ∧
    (s.departure_time ≠ 0 → (s.detect_departure_time r).departure_time = s.departure_time) := by
  constructor
  · intro ha
    simp [AidStation.detect_arrival_time, ha]
  · intro hd
    simp [AidStation.detect_departure_time, hd]

/-- C8 (witness): a station with both timestamps recorded and a runner past
it (for whom the detection branches would otherwise fire) keeps both
timestamps. -/
theorem C8_recorded_timestamps_immutable_witness :
    (c8_station.detect_arrival_time c8_runner).arrival_time = c8_station.arrival_time ∧
    (c8_station.detect_departure_time c8_runner).departure_time = c8_station.departure_time :=
  ⟨(C8_recorded_timestamps_immutable c8_station c8_runner).1 (by norm_num [c8_station]),
   (C8_recorded_timestamps_immutable c8_station c8_runner).2 (by norm_num [c8_station])⟩

/-- The last interpolated point (`j = num_intervals`) coincides with the
segment endpoint `point2`, since stepping `n` times by `(point2 - point1)/n`
lands exactly on `point2`. -/
theorem lerp_self (p1 p2 : LatLon) (n : ℕ) (hn : n ≠ 0) : lerpPoint p1 p2 n n = p2 := by
  have h : (n : ℚ) ≠ 0 := Nat.cast_ne_zero.mpr hn
  obtain ⟨a, b⟩ := p2
  simp only [lerpPoint, LatLon.mk.injEq]
  constructor <;> field_simp

/-- C3 (counterexample): with a 100-ft gap and a 75-ft maximum spacing the
interpolation branch appends `int(100/75) = 1` point — not the
`ceil(100/75) = 2` points the claim states — so the single appended point
is the far endpoint itself, 100 ft from its predecessor.  The full builder
output on a 3-point polyline shows the same count (4 output points would be
needed for 2 intermediates). -/
theorem C3_int_truncates_interpolation_count :
    dist1D ⟨0, 0⟩ ⟨100, 0⟩ = 100 ∧ (75 : ℚ) < 100 ∧
    (interpStep dist1D 5 75 ⟨0, 0⟩ ⟨100, 0⟩).length = 1 ∧
    (⌈(100 : ℚ) / 75⌉ : ℤ) = 2 ∧
    interpolate_and_filter_points dist1D [⟨0, 0⟩, ⟨50, 0⟩, ⟨100, 0⟩] 5 75 =
      .ok [⟨0, 0⟩, ⟨100, 0⟩, ⟨100, 0⟩] := by
  refine ⟨by norm_num [dist1D], by norm_num, ?_, by norm_num [Int.ceil_eq_iff], ?_⟩
  · norm_num [interpStep, dist1D, pyInt, lerpPoint, List.range_succ]
  · norm_num [interpolate_and_filter_points, iafpGo, interpStep, dist1D, pyInt, lerpPoint,
      List.range_succ]

/-- C3 (amended): when the gap `d` between the last accepted point and the
candidate exceeds a positive `max_interval_dist` (and is not below
`min_interval_dist`), the loop body appends exactly `int(d / max)` (floor,
not ceil) linearly interpolated points, in order; the `j`-th appended point
is `point1 + (j+1) * ((point2 - point1) / n)`, and the last appended point
is the candidate `point2` itself (so strictly-between points number
`int(d / max) - 1`). -/
theorem C3_floor_interpolation (dist : GeoDist) (min_interval_dist max_interval_dist : ℚ)
    (p1 p2 : LatLon) (hmin : ¬ dist p1 p2 < min_interval_dist)
    (hmax : max_interval_dist < dist p1 p2) (hpos : 0 < max_interval_dist) :
    (interpStep dist min_interval_dist max_interval_dist p1 p2).length =
      (pyInt (dist p1 p2 / max_interval_dist)).toNat ∧
    1 ≤ (pyInt (dist p1 p2 / max_interval_dist)).toNat ∧
    (∀ j, j < (pyInt (dist p1 p2 / max_interval_dist)).toNat →
      (interpStep dist min_interval_dist max_interval_dist p1 p2)[j]? =
        some (lerpPoint p1 p2 ((pyInt (dist p1 p2 / max_interval_dist)).toNat) (j + 1))) ∧
    (interpStep dist min_interval_dist max_interval_dist p1 p2)[
        (pyInt (dist p1 p2 / max_interval_dist)).toNat - 1]? = some p2 := by
  have hq1 : (1 : ℚ) < dist p1 p2 / max_interval_dist := (one_lt_div hpos).mpr hmax
  have hq0 : ¬ dist p1 p2 / max_interval_dist < 0 := not_lt.mpr (by linarith)
  have hpy : pyInt (dist p1 p2 / max_interval_dist) = ⌊dist p1 p2 / max_interval_dist⌋ := by
    rw [pyInt, if_neg hq0]
  have hfl1 : 1 ≤ ⌊dist p1 p2 / max_interval_dist⌋ :=
    Int.le_floor.mpr (by exact_mod_cast hq1.le)
  have hn1 : 1 ≤ (pyInt (dist p1 p2 / max_interval_dist)).toNat := by
    rw [hpy]; omega
  have hstep : interpStep dist min_interval_dist max_interval_dist p1 p2 =
      (List.range ((pyInt (dist p1 p2 / max_interval_dist)).toNat)).map
        (fun j => lerpPoint p1 p2 ((pyInt (dist p1 p2 / max_interval_dist)).toNat) (j + 1)) := by
    simp only [interpStep]
    rw [if_neg hmin, if_pos hmax]
  refine ⟨by rw [hstep]; simp, hn1, ?_, ?_⟩
  · intro j hj
    rw [hstep]
    simp [List.getElem?_map, List.getElem?_range, hj]
  · rw [hstep]
    have hlt : (pyInt (dist p1 p2 / max_interval_dist)).toNat - 1 <
        (pyInt (dist p1 p2 / max_interval_dist)).toNat := by omega
    have hsucc : (pyInt (dist p1 p2 / max_interval_dist)).toNat - 1 + 1 =
        (pyInt (dist p1 p2 / max_interval_dist)).toNat := by omega
    simp only [List.getElem?_map, List.getElem?_range, hlt, if_pos, Option.map_some']
    rw [hsucc, lerp_self p1 p2 _ (by omega)]

/-- C3 (witness): the amended statement at the 100-ft/75-ft instance,
where `int(100/75) = 1` point is appended and it is the endpoint. -/
theorem C3_floor_interpolation_witness :
    (¬ dist1D ⟨0, 0⟩ ⟨100, 0⟩ < 5) ∧ (75 : ℚ) < dist1D ⟨0, 0⟩ ⟨100, 0⟩ ∧
    (interpStep dist1D 5 75 ⟨0, 0⟩ ⟨100, 0⟩).length =
      (pyInt (dist1D ⟨0, 0⟩ ⟨100, 0⟩ / 75)).toNat ∧
    (interpStep dist1D 5 75 ⟨0, 0⟩ ⟨100, 0⟩)[
        (pyInt (dist1D ⟨0, 0⟩ ⟨100, 0⟩ / 75)).toNat - 1]? = some ⟨100, 0⟩ :=
  have h1 : ¬ dist1D ⟨0, 0⟩ ⟨100, 0⟩ < 5 := by norm_num [dist1D]
  have h2 : (75 : ℚ) < dist1D ⟨0, 0⟩ ⟨100, 0⟩ := by norm_num [dist1D]
  have h := C3_floor_interpolation dist1D 5 75 ⟨0, 0⟩ ⟨100, 0⟩ h1 h2 (by norm_num)
  ⟨h1, h2, h.1, h.2.2.2⟩

/-- Entries of a `zipWith` of a nonnegative distance oracle are
nonnegative. -/
theorem zipWith_dist_nonneg (distMi : GeoDist) (h : ∀ a b, 0 ≤ distMi a b) :
    ∀ (l₁ l₂ : List LatLon), ∀ x ∈ List.zipWith distMi l₁ l₂, 0 ≤ x := by
  intro l₁
  induction l₁ with
  | nil => intro l₂ x hx; simp at hx
  | cons a as ih =>
    intro l₂ x hx
    cases l₂ with
    | nil => simp at hx
    | cons b bs =>
      rcases List.mem_cons.mp hx with h1 | h2
      · exact h1 ▸ h a b
      · exact ih bs x h2

/-- The running-sum list starts with its seed. -/
theorem scanl_head (a : ℚ) (l : List ℚ) :
    (List.scanl (· + ·) a l).head? = some a := by
  cases l <;> simp [List.scanl]

/-- Running sums of nonnegative terms are non-decreasing. -/
theorem chain'_le_scanl (l : List ℚ) (hl : ∀ x ∈ l, 0 ≤ x) :
    ∀ a : ℚ, List.Chain' (· ≤ ·) (List.scanl (· + ·) a l) := by
  induction l with
  | nil => intro a; simp
  | cons x xs ih =>
    intro a
    rw [List.scanl_cons, List.singleton_append, List.chain'_cons']
    refine ⟨?_, ih (fun z hz => hl z (List.mem_cons_of_mem _ hz)) (a + x)⟩
    intro y hy
    rw [scanl_head] at hy
    have hx : 0 ≤ x := hl x (List.mem_cons_self x xs)
    simp only [Option.mem_def, Option.some.injEq] at hy
    linarith [hy]

/-- C5 (counterexample): on the 3-point polyline of the C3 counterexample
the builder outputs `[p0, p2, p2]`, and the first — non-final — pair of
consecutive output points is 100 ft apart, above the 75-ft maximum spacing
(the interpolation undershoots because it uses `int`, i.e. floor).  The
unconditional trailing append also duplicates the last point, so the final
segment has length 0, below the 5-ft minimum. -/
theorem C5_spacing_bound_violated :
    interpolate_and_filter_points dist1D [⟨0, 0⟩, ⟨50, 0⟩, ⟨100, 0⟩] 5 75 =
      .ok [⟨0, 0⟩, ⟨100, 0⟩, ⟨100, 0⟩] ∧
    ¬ dist1D ⟨0, 0⟩ ⟨100, 0⟩ ≤ 75 := by
  constructor
  · norm_num [interpolate_and_filter_points, iafpGo, interpStep, dist1D, pyInt, lerpPoint,
      List.range_succ]
  · norm_num [dist1D]

/-- C5 (amended): whenever `transform_path` succeeds and the mile oracle is
nonnegative (geodesic distances are), the cumulative-distance array starts
at 0 and is monotonically non-decreasing.  The spacing half of the original
claim is refuted by `C5_spacing_bound_violated`. -/
theorem C5_cumulative_distances_monotone (distFt distMi : GeoDist)
    (h : ∀ a b, 0 ≤ distMi a b) (path_data : List LatLon)
    (min_step_size max_step_size : ℚ) (pts : List LatLon) (cum : List ℚ)
    (hok : transform_path distFt distMi path_data min_step_size max_step_size =
      .ok (pts, cum)) :
    cum.head? = some 0 ∧ List.Chain' (· ≤ ·) cum := by
  match path_data, hok with
  | [], hok => simp [transform_path, interpolate_and_filter_points, Except.map] at hok
  | [_], hok => simp [transform_path, interpolate_and_filter_points, Except.map] at hok
  | [_, _], hok => simp [transform_path, interpolate_and_filter_points, Except.map] at hok
  | c0 :: c1 :: c2 :: rest, hok =>
    simp only [transform_path, interpolate_and_filter_points, Except.map,
      Except.ok.injEq, Prod.mk.injEq] at hok
    obtain ⟨hpts, hcum⟩ := hok
    rw [← hcum]
    constructor
    · simp only [cumulativeDistances]
      exact scanl_head 0 _
    · simp only [cumulativeDistances]
      exact chain'_le_scanl _ (fun x hx => zipWith_dist_nonneg distMi h _ _ x hx) 0

/-- C5 (witness): the amended statement at a concrete successful run of the
builder with the constant one-mile oracle. -/
theorem C5_cumulative_distances_monotone_witness :
    (∀ a b, 0 ≤ oneMi a b) ∧
    transform_path dist1D oneMi [⟨0, 0⟩, ⟨50, 0⟩, ⟨100, 0⟩] 5 75 =
      .ok ([⟨0, 0⟩, ⟨100, 0⟩, ⟨100, 0⟩], [0, 1, 2]) ∧
    ([0, 1, 2] : List ℚ).head? = some 0 ∧ List.Chain' (· ≤ ·) ([0, 1, 2] : List ℚ) := by
  have h1 : ∀ a b : LatLon, 0 ≤ oneMi a b := fun a b => by norm_num [oneMi]
  have h2 : transform_path dist1D oneMi [⟨0, 0⟩, ⟨50, 0⟩, ⟨100, 0⟩] 5 75 =
      .ok ([⟨0, 0⟩, ⟨100, 0⟩, ⟨100, 0⟩], [0, 1, 2]) := by
    norm_num [transform_path, interpolate_and_filter_points, iafpGo, interpStep, dist1D,
      pyInt, lerpPoint, List.range_succ, Except.map, cumulativeDistances,
      pairwiseDistances, oneMi, List.scanl]
  have h3 := C5_cumulative_distances_monotone dist1D oneMi h1 _ 5 75 _ _ h2
  exact ⟨h1, h2, h3.1, h3.2⟩

/-- Entry `i` of a running-sum list is the seed plus the sum of the first
`i` terms. -/
theorem scanl_getD : ∀ (l : List ℚ) (a : ℚ) (i : ℕ), i ≤ l.length →
    (List.scanl (· + ·) a l).getD i 0 = a + (l.take i).sum
  | [], a, 0, _ => by simp [List.scanl]
  | [], _, i + 1, h => by simp at h
  | x :: xs, a, 0, _ => by simp [List.scanl]
  | x :: xs, a, i + 1, h => by
    rw [List.scanl_cons, List.singleton_append, List.getD_cons_succ,
      scanl_getD xs (a + x) i (by simpa using h), List.take_succ_cons, List.sum_cons]
    ring

/-- Prepending an element to a (never empty) running-sum list does not
change its last entry. -/
theorem getLast?_cons_scanl (b a : ℚ) (l : List ℚ) :
    (b :: List.scanl (· + ·) a l).getLast? = (List.scanl (· + ·) a l).getLast? := by
  cases l <;> simp [List.scanl, List.getLast?_cons_cons]

/-- The last entry of a running-sum list is the seed plus the total sum. -/
theorem scanl_getLast : ∀ (l : List ℚ) (a : ℚ),
    (List.scanl (· + ·) a l).getLast? = some (a + l.sum)
  | [], a => by simp [List.scanl]
  | x :: xs, a => by
    rw [List.scanl_cons, List.singleton_append, getLast?_cons_scanl,
      scanl_getLast xs (a + x), List.sum_cons]
    rw [add_assoc]

/-- A running sum over all-zero terms is constantly its seed. -/
theorem scanl_eq_seed_of_zero : ∀ (l : List ℚ) (a : ℚ), (∀ x ∈ l, x = 0) →
    ∀ y ∈ List.scanl (· + ·) a l, y = a
  | [], a, _, y, hy => by simpa [List.scanl] using hy
  | x :: xs, a, h, y, hy => by
    rw [List.scanl_cons, List.singleton_append] at hy
    rcases List.mem_cons.mp hy with h1 | h2
    · exact h1
    · have hx : x = 0 := h x (List.mem_cons_self x xs)
      have hrec := scanl_eq_seed_of_zero xs (a + x)
        (fun z hz => h z (List.mem_cons_of_mem _ hz)) y h2
      rw [hrec, hx, add_zero]

/-- Both clipped deltas are nonnegative. -/
theorem posDelta_nonneg (c : ℚ) : 0 ≤ posDelta c := by
  rw [posDelta]; split <;> simp_all [le_of_lt]

/-- The negative-delta clip is nonnegative as well. -/
theorem negDelta_nonneg (c : ℚ) : 0 ≤ negDelta c := by
  rw [negDelta]; split <;> simp_all [le_of_lt]

/-- A nonnegative delta contributes nothing to the losses. -/
theorem negDelta_of_nonneg {c : ℚ} (h : 0 ≤ c) : negDelta c = 0 := by
  rw [negDelta, if_neg (not_lt.mpr h)]

/-- A nonpositive delta contributes nothing to the gains. -/
theorem posDelta_of_nonpos {c : ℚ} (h : c ≤ 0) : posDelta c = 0 := by
  rw [posDelta, if_neg (not_lt.mpr h)]

/-- On nonnegative deltas the gains clip is the identity. -/
theorem map_posDelta_of_nonneg : ∀ (l : List ℚ), (∀ c ∈ l, 0 ≤ c) →
    l.map posDelta = l
  | [], _ => rfl
  | x :: xs, h => by
    have hx : 0 ≤ x := h x (List.mem_cons_self x xs)
    have hpd : posDelta x = x := by
      rcases lt_or_eq_of_le hx with h0 | h0
      · rw [posDelta, if_pos h0]
      · rw [posDelta, ← h0, if_neg (lt_irrefl 0)]
    rw [List.map_cons, hpd,
      map_posDelta_of_nonneg xs (fun c hc => h c (List.mem_cons_of_mem _ hc))]

/-- On nonpositive deltas the losses clip sums to the negated sum. -/
theorem sum_map_negDelta_of_nonpos : ∀ (l : List ℚ), (∀ c ∈ l, c ≤ 0) →
    (l.map negDelta).sum = -l.sum
  | [], _ => by simp
  | x :: xs, h => by
    have hx : x ≤ 0 := h x (List.mem_cons_self x xs)
    have hnd : negDelta x = -x := by
      rcases lt_or_eq_of_le hx with h0 | h0
      · rw [negDelta, if_pos h0]
      · rw [negDelta, h0, if_neg (lt_irrefl 0), neg_zero]
    rw [List.map_cons, List.sum_cons, List.sum_cons, hnd,
      sum_map_negDelta_of_nonpos xs (fun c hc => h c (List.mem_cons_of_mem _ hc))]
    ring

/-- The gains clip sums exactly over the positive deltas. -/
theorem sum_map_posDelta_filter : ∀ (l : List ℚ),
    (l.map posDelta).sum = (l.filter (fun c => decide (0 < c))).sum
  | [] => rfl
  | x :: xs => by
    by_cases h0 : 0 < x
    · simp [posDelta, h0, List.filter_cons, sum_map_posDelta_filter xs]
    · simp [posDelta, h0, List.filter_cons, sum_map_posDelta_filter xs]

/-- The losses clip sums exactly over the absolute values of the negative
deltas. -/
theorem sum_map_negDelta_filter : ∀ (l : List ℚ),
    (l.map negDelta).sum =
      ((l.filter (fun c => decide (c < 0))).map (fun c => -c)).sum
  | [] => rfl
  | x :: xs => by
    by_cases h0 : x < 0
    · simp [negDelta, h0, List.filter_cons, sum_map_negDelta_filter xs]
    · simp [negDelta, h0, List.filter_cons, sum_map_negDelta_filter xs]

/-- Consecutive deltas of a non-decreasing array are nonnegative. -/
theorem np_diff_nonneg : ∀ (l : List ℚ), List.Chain' (· ≤ ·) l →
    ∀ c ∈ np_diff l, 0 ≤ c
  | [], _, c, hc => by simp [np_diff] at hc
  | [_], _, c, hc => by simp [np_diff] at hc
  | a :: b :: t, h, c, hc => by
    rw [List.chain'_cons] at h
    have hc2 : c ∈ (b - a) :: np_diff (b :: t) := hc
    rcases List.mem_cons.mp hc2 with h1 | h2
    · rw [h1]; linarith [h.1]
    · exact np_diff_nonneg (b :: t) h.2 c h2

/-- Consecutive deltas of a non-increasing array are nonpositive. -/
theorem np_diff_nonpos : ∀ (l : List ℚ), List.Chain' (· ≥ ·) l →
    ∀ c ∈ np_diff l, c ≤ 0
  | [], _, c, hc => by simp [np_diff] at hc
  | [_], _, c, hc => by simp [np_diff] at hc
  | a :: b :: t, h, c, hc => by
    rw [List.chain'_cons] at h
    have hc2 : c ∈ (b - a) :: np_diff (b :: t) := hc
    rcases List.mem_cons.mp hc2 with h1 | h2
    · rw [h1]; have hba : b ≤ a := h.1; linarith
    · exact np_diff_nonpos (b :: t) h.2 c h2

/-- The deltas telescope: their total is last minus first. -/
theorem np_diff_sum : ∀ (l : List ℚ) (a : ℚ),
    (np_diff (a :: l)).sum = l.getLastD a - a
  | [], a => by simp [np_diff]
  | b :: t, a => by
    have hstep : np_diff (a :: b :: t) = (b - a) :: np_diff (b :: t) := rfl
    rw [hstep, List.sum_cons, np_diff_sum t b, List.getLastD_cons]
    ring

/-- C9: the gains/losses arrays both start with 0 and are monotonically
non-decreasing; entry `i` of gains (resp. losses) is the sum of the
positive deltas (resp. of the absolute values of the negative deltas) among
the first `i` consecutive deltas; on a monotonically non-decreasing input
the losses are identically 0 and the final gain is the total rise, and
symmetrically on a monotonically non-increasing input. -/
theorem C9_cumulative_gains_losses (altitudes : List ℚ) :
    (cumulative_altitude_changes altitudes).1.head? = some 0 ∧
    (cumulative_altitude_changes altitudes).2.head? = some 0 ∧
    List.Chain' (· ≤ ·) (cumulative_altitude_changes altitudes).1 ∧
    List.Chain' (· ≤ ·) (cumulative_altitude_changes altitudes).2 ∧
    (∀ i, i ≤ (np_diff altitudes).length →
      (cumulative_altitude_changes altitudes).1.getD i 0 =
        (((np_diff altitudes).take i).filter (fun c => decide (0 < c))).sum ∧
      (cumulative_altitude_changes altitudes).2.getD i 0 =
        ((((np_diff altitudes).take i).filter (fun c => decide (c < 0))).map
          (fun c => -c)).sum) ∧
    (List.Chain' (· ≤ ·) altitudes →
      (∀ x ∈ (cumulative_altitude_changes altitudes).2, x = 0) ∧
      (cumulative_altitude_changes altitudes).1.getLast? =
        some (altitudes.getLastD 0 - altitudes.headD 0)) ∧
    (List.Chain' (· ≥ ·) altitudes →
      (∀ x ∈ (cumulative_altitude_changes altitudes).1, x = 0) ∧
      (cumulative_altitude_changes altitudes).2.getLast? =
        some (altitudes.headD 0 - altitudes.getLastD 0)) := by
  have hg : (cumulative_altitude_changes altitudes).1 =
      List.scanl (· + ·) 0 ((np_diff altitudes).map posDelta) := rfl
  have hlo : (cumulative_altitude_changes altitudes).2 =
      List.scanl (· + ·) 0 ((np_diff altitudes).map negDelta) := rfl
  refine ⟨by rw [hg]; exact scanl_head 0 _, by rw [hlo]; exact scanl_head 0 _,
    ?_, ?_, ?_, ?_, ?_⟩
  · rw [hg]
    refine chain'_le_scanl _ (fun x hx => ?_) 0
    obtain ⟨c, _, rfl⟩ := List.mem_map.mp hx
    exact posDelta_nonneg c
  · rw [hlo]
    refine chain'_le_scanl _ (fun x hx => ?_) 0
    obtain ⟨c, _, rfl⟩ := List.mem_map.mp hx
    exact negDelta_nonneg c
  · intro i hi
    constructor
    · rw [hg, scanl_getD _ 0 i (by simpa using hi), zero_add, ← List.map_take,
        sum_map_posDelta_filter]
    · rw [hlo, scanl_getD _ 0 i (by simpa using hi), zero_add, ← List.map_take,
        sum_map_negDelta_filter]
  · intro hch
    have hnn := np_diff_nonneg altitudes hch
    constructor
    · rw [hlo]
      intro x hx
      refine scanl_eq_seed_of_zero _ 0 (fun y hy => ?_) x hx
      obtain ⟨c, hc, rfl⟩ := List.mem_map.mp hy
      exact negDelta_of_nonneg (hnn c hc)
    · rw [hg, scanl_getLast, map_posDelta_of_nonneg _ hnn, zero_add]
      cases altitudes with
      | nil => simp [np_diff]
      | cons a t =>
        rw [np_diff_sum t a, List.getLastD_cons, List.headD_cons]
  · intro hch
    have hnp := np_diff_nonpos altitudes hch
    constructor
    · rw [hg]
      intro x hx
      refine scanl_eq_seed_of_zero _ 0 (fun y hy => ?_) x hx
      obtain ⟨c, hc, rfl⟩ := List.mem_map.mp hy
      exact posDelta_of_nonpos (hnp c hc)
    · rw [hlo, scanl_getLast, sum_map_negDelta_of_nonpos _ hnp, zero_add]
      cases altitudes with
      | nil => simp [np_diff]
      | cons a t =>
        rw [np_diff_sum t a, List.getLastD_cons, List.headD_cons, neg_sub]

/-- C9 (witness): the monotone parts of the statement instantiated at the
repository's own test vectors `[1, 3, 5, 7]` and `[7, 5, 3, 1]`
(`tests/test_models_course.py:116-123`). -/
theorem C9_cumulative_gains_losses_witness :
    (∀ x ∈ (cumulative_altitude_changes [1, 3, 5, 7]).2, x = 0) ∧
    (cumulative_altitude_changes [1, 3, 5, 7]).1.getLast? = some 6 ∧
    (∀ x ∈ (cumulative_altitude_changes [7, 5, 3, 1]).1, x = 0) ∧
    (cumulative_altitude_changes [7, 5, 3, 1]).2.getLast? = some 6 := by
  have h1 := (C9_cumulative_gains_losses [1, 3, 5, 7]).2.2.2.2.2.1
    (by norm_num [List.chain'_cons])
  have h2 := (C9_cumulative_gains_losses [7, 5, 3, 1]).2.2.2.2.2.2
    (by norm_num [List.chain'_cons])
  refine ⟨h1.1, ?_, h2.1, ?_⟩
  · have := h1.2
    norm_num at this
    exact this
  · have := h2.2
    norm_num at this
    exact this

/-- C10: when the center is strictly farther than the radius from every
route point, the radius query returns an empty index array together with
the contiguity flag `True` — because `np.split` of an empty sorted array at
no break points yields exactly one (empty) segment, so
`detect_consecutive_sequences [] = [[]]` has length 1. -/
theorem C10_far_center_empty_contiguous (dist : GeoDist) (points : List LatLon)
    (center : LatLon) (radius : ℚ) (h : ∀ p ∈ points, radius < dist center p) :
    get_indices_within_radius dist points center radius = ([], true) ∧
    detect_consecutive_sequences [] = [[]] := by
  have key : ∀ i ∈ List.range points.length,
      ¬ ((points.map (fun p => dist center p)).getD i 0 ≤ radius) := by
    intro i hi
    rw [List.mem_range] at hi
    have hget : (points.map (fun p => dist center p)).getD i 0 =
        dist center points[i] := by
      rw [List.getD_eq_getElem?_getD, List.getElem?_map,
        List.getElem?_eq_getElem hi]
      rfl
    rw [hget]
    exact not_le.mpr (h points[i] (points.getElem_mem hi))
  have hfilter : (List.range points.length).filter
      (fun i => decide ((points.map (fun p => dist center p)).getD i 0 ≤ radius)) = [] := by
    refine List.filter_eq_nil_iff.mpr ?_
    intro a ha
    simpa using key a ha
  refine ⟨?_, rfl⟩
  simp only [get_indices_within_radius, hfilter, sortIndicesByDistance,
    detect_consecutive_sequences, np_sort, splitRuns, List.foldr_nil,
    List.mergeSort_nil]
  rfl

/-- C10 (witness): a one-point route two units from the center with radius
one. -/
theorem C10_far_center_empty_contiguous_witness :
    get_indices_within_radius dist1D [⟨2, 0⟩] ⟨0, 0⟩ 1 = ([], true) ∧
    detect_consecutive_sequences [] = [[]] := by
  refine C10_far_center_empty_contiguous dist1D [⟨2, 0⟩] ⟨0, 0⟩ 1 ?_
  intro p hp
  rw [List.mem_singleton] at hp
  rw [hp]
  norm_num [dist1D]
